import Mathlib

/-!
# Shallow embedding of the flashio log correlation / anomaly-detection engine

This file embeds the core analysis functions of the repository
(`api/routes/correlation.py` and `api/routes/anomalies.py`) as executable
Lean definitions and proves/refutes the frozen claims about them.

Modelling conventions:
* A Python log record is an association list `PyDict` of string keys to
  dynamically typed values `PyVal` (`None`, `str`, `int`).  Nested mappings
  are not populated by any claim; the dotted-path branch of the field
  extractor is still translated and behaves on these values exactly as the
  source does on non-mapping values (every nested lookup fails and is
  swallowed).
* Machine floats are modelled as `ℚ`.  The only float behaviour that does
  not transfer directly is division by zero, which in the source appears
  as numpy-float division producing `+inf` that is immediately capped by
  `min(0.95, ·)`; the helper `minConf95` models that composite exactly.
  Plain-Python float division by zero raises `ZeroDivisionError`, which is
  modelled as an `Except` error.
* Library parsers are oracles passed as parameters:
  `ptime : String → Option ℚ` abstracts
  `datetime.fromisoformat(s.replace('Z','+00:00'))` followed by the
  `strptime('%Y-%m-%d %H:%M:%S')` fallback (result: epoch seconds;
  `none` = both attempts raise), `isoHour : String → Option ℕ` abstracts
  `datetime.fromisoformat(s.replace('Z','+00:00')).hour`, and
  `floatParse : String → Option ℚ` abstracts `float(s)`.
* Wall-clock reads (`datetime.now()`) and `uuid.uuid4()` draws are
  nondeterministic inputs, passed explicitly: `now : ℚ` is the instant the
  call runs at, `uuids : ℕ → String` is the stream of uuid hex prefixes
  consumed left to right.
* Fallible Python code (statements that can raise an uncaught exception)
  returns `Except PyErr`.
* Python object identity (`id(...)`) is modelled by the record's position
  in the input batch.
* `list(set(...))` is modelled as first-seen deduplication; within one
  CPython process two identically built sets enumerate identically, and no
  claim depends on the particular enumeration order.
-/

-- Batteries marks the rational-arithmetic kernels `@[irreducible]`; proofs
-- here evaluate the embedded functions on concrete inputs, so they are
-- unsealed for this file.
unseal Rat.add Rat.sub Rat.mul Rat.inv Rat.ofScientific

deriving instance DecidableEq for Except

/-- Uncaught Python exception kinds reachable in the embedded code. -/
inductive PyErr where
  | typeError
  | attrError
  | zeroDivisionError
deriving DecidableEq, Repr

/-- A dynamically typed Python value as stored in a log record. -/
inductive PyVal where
  | vNone
  | vStr (s : String)
  | vInt (n : Int)
deriving DecidableEq, Repr

open PyVal

/-- A Python dict with string keys (a normalized log record). -/
abbrev PyDict := List (String × PyVal)

/-- `k in d` / `d[k]` lookup: first binding wins. -/
def dictGet (d : PyDict) (k : String) : Option PyVal :=
  (d.find? (fun p => p.1 == k)).map (·.2)

/-- `d.get(k, dflt)`. -/
def dictGetD (d : PyDict) (k : String) (dflt : PyVal) : PyVal :=
  (dictGet d k).getD dflt

/-- `k in d`. -/
def dictHas (d : PyDict) (k : String) : Bool :=
  (dictGet d k).isSome

/-- Python truthiness of a value (`if value:`). -/
def pyTruthy : PyVal → Bool
  | vNone => false
  | vStr s => s ≠ ""
  | vInt n => n ≠ 0

/-! String primitives are re-implemented by structural recursion over the
character list so that every definition evaluates inside the kernel; each is
extensionally the library/Python operation it names. -/

/-- Splitter for `str.split(sep)` with nonempty `sep`: leftmost
non-overlapping matches.  `skip` counts separator characters still to be
consumed after a match. -/
def pySplitOnAux (sep : List Char) : List Char → Nat → List Char → List (List Char)
  | [], _, cur => [cur.reverse]
  | _ :: rest, Nat.succ k, cur => pySplitOnAux sep rest k cur
  | c :: rest, 0, cur =>
    if sep.isPrefixOf (c :: rest) then
      cur.reverse :: pySplitOnAux sep rest (sep.length - 1) []
    else pySplitOnAux sep rest 0 (c :: cur)

/-- Python `s.split(sep)` for a nonempty separator. -/
def pySplitOn (s sep : String) : List String :=
  if sep = "" then [s]
  else (pySplitOnAux sep.data s.data 0 []).map String.mk

/-- Python `sub in s` for a nonempty literal `sub`. -/
def strContains (sub s : String) : Bool :=
  (pySplitOn s sub).length > 1

/-- Python `s.replace(sub, repl)` for a nonempty `sub`. -/
def pyReplace (s sub repl : String) : String :=
  String.mk (repl.data.intercalate (pySplitOnAux sub.data s.data 0 []))

/-- Split on a character predicate (every satisfying char is a cut point). -/
def splitPred (p : Char → Bool) : List Char → List Char → List (List Char)
  | [], cur => [cur.reverse]
  | c :: rest, cur =>
    if p c then cur.reverse :: splitPred p rest []
    else splitPred p rest (c :: cur)

/-- Python `str.split()` — split on whitespace runs, dropping empty pieces. -/
def wsSplit (s : String) : List String :=
  ((splitPred (fun c => c.isWhitespace) s.data []).map String.mk).filter
    (fun w => w ≠ "")

/-- Python `str.lower()`. -/
def strLower (s : String) : String :=
  String.mk (s.data.map Char.toLower)

/-- `v.lower()`: attribute error unless the value is a string. -/
def pyLower : PyVal → Except PyErr String
  | vStr s => .ok (strLower s)
  | _ => .error .attrError

/-- Python `str.strip()` (whitespace from both ends). -/
def strTrim (s : String) : String :=
  String.mk ((s.data.dropWhile Char.isWhitespace).reverse.dropWhile
      Char.isWhitespace).reverse

/-- Python `str.strip(chars)` for the punctuation set `":=[]()"` used by the
field extractor, composed with the trailing plain `.strip()`. -/
def stripPunct (s : String) : String :=
  let cs : List Char := [':', '=', '[', ']', '(', ')']
  strTrim (String.mk (((s.data.dropWhile (fun c => cs.contains c)).reverse.dropWhile
      (fun c => cs.contains c)).reverse))

/-- The f-string rendering of a value (`f"{level}"`). The source only ever
renders strings in the claims' inputs; `None` and ints render as their repr. -/
def pyStr : PyVal → String
  | vNone => "None"
  | vStr s => s
  | vInt n => toString n

/-- Mean of a list of rationals (`np.mean`); callers guard nonemptiness. -/
def qmean (l : List ℚ) : ℚ := l.sum / l.length

/-- Population variance (`np.std` squared). -/
def qvariance (l : List ℚ) : ℚ := qmean (l.map (fun x => (x - qmean l) ^ 2))

/-- `LogCorrelator.parse_timestamp`: try the (abstracted) library parsers on a
string value, fall back to the current instant `now` on any failure; a
non-string value makes the first attempt raise, which the bare `except`
swallows into the same fallback. Never raises. -/
def parse_timestamp (ptime : String → Option ℚ) (now : ℚ) : PyVal → ℚ
  | vStr s => (ptime s).getD now
  | _ => now

/-- Best-effort token scan used on message bodies: split the message on the
literal field name, take the first whitespace token after it, strip the
punctuation set; empty results are discarded (`if id_part:`). Failures of
`parts[1].split()[0]` are the swallowed `IndexError`. -/
def msgScanToken (msg fieldName : String) : Option String :=
  match pySplitOn msg fieldName with
  | _ :: p1 :: _ =>
    match wsSplit p1 with
    | [] => none
    | t :: _ =>
      let idp := stripPunct t
      if idp ≠ "" then some idp else none
  | _ => none

/-- The dotted-path branch of the field extractor: descend through the parts.
Values are never mappings in this model, so the second `current[part]` step
lands on a non-mapping and raises the swallowed `KeyError`/`TypeError`;
a dotted field thus resolves exactly as the source does on records whose
values are scalars. -/
def nestedLookup (log : PyDict) : List String → Option PyVal
  | [] => none
  | [p] => dictGet log p
  | p :: _ :: _ => (dictGet log p).bind (fun _ => none)

/-- One field of `LogCorrelator.extract_correlation_fields`: the direct-key
branch (`continue` on hit), then the dotted-path branch, then the
message-scan branch for the two special fields `request_id` / `user_id`.
The membership tests `'request_id' in message` and `'user' in message` run
outside any `try`, so a non-string message value raises `TypeError`. -/
def extractOneField (log : PyDict) (f : String) : Except PyErr (Option PyVal) :=
  if dictHas log f then .ok (dictGet log f)
  else if strContains "." f then
    -- a dotted field name never equals "request_id"/"user_id", so the
    -- message-scan conditions below are vacuous for it
    .ok (nestedLookup log (pySplitOn f "."))
  else
    let msg := dictGetD log "message" (vStr "")
    if f = "request_id" then
      match msg with
      | vStr s =>
        .ok (if strContains "request_id" s then
              (msgScanToken s "request_id").map vStr
            else none)
      | _ => .error .typeError
    else if f = "user_id" then
      match msg with
      | vStr s =>
        .ok (if strContains "user" s then
              (if strContains "user_id" s then (msgScanToken s "user_id").map vStr
               else none)
            else none)
      | _ => .error .typeError
    else .ok none

/-- `LogCorrelator.extract_correlation_fields`: walk the requested fields in
order, building the result dict; propagates the uncaught `TypeError` from the
message-scan branches. -/
def extract_correlation_fields (log : PyDict) (fields : List String) :
    Except PyErr PyDict :=
  match fields with
  | [] => .ok []
  | f :: rest => do
    let v ← extractOneField log f
    let tail ← extract_correlation_fields log rest
    match v with
    | some v => .ok ((f, v) :: tail)
    | none => .ok tail

/-! ## Sorting and grouping primitives -/

/-- Insert `x` into an ascending list, after all entries with `le y x`
(so equal keys keep their original relative order). -/
def stableInsert (le : α → α → Bool) (x : α) : List α → List α
  | [] => [x]
  | y :: ys => if le y x then y :: stableInsert le x ys else x :: y :: ys

/-- Stable ascending sort — extensionally Python's `sorted` for any total
preorder `le` (insertion sort keeps ties in input order). -/
def stableSort (le : α → α → Bool) (l : List α) : List α :=
  l.foldl (fun acc x => stableInsert le x acc) []

/-- `list(set(...))`: deduplication keeping first occurrences (see header). -/
def firstSeenDedup [DecidableEq α] : List α → List α :=
  go []
where
  go (seen : List α) : List α → List α
    | [] => []
    | x :: xs => if x ∈ seen then go seen xs else x :: go (seen ++ [x]) xs

/-- `defaultdict(list)` append under key `k`, keys kept in insertion order. -/
def bumpGroup [DecidableEq κ] (k : κ) (l : PyDict) :
    List (κ × List PyDict) → List (κ × List PyDict)
  | [] => [(k, [l])]
  | (k', ls) :: rest =>
    if k' = k then (k', ls ++ [l]) :: rest else (k', ls) :: bumpGroup k l rest

/-- `max` of a Python nonempty list (callers guard nonemptiness). -/
def listMax : List ℚ → ℚ
  | [] => 0
  | x :: xs => xs.foldl max x

/-- `min` of a Python nonempty list (callers guard nonemptiness). -/
def listMin : List ℚ → ℚ
  | [] => 0
  | x :: xs => xs.foldl min x

/-! ## Correlation groups -/

/-- `CorrelatedLogGroup` (correlation.py).  `services_involved` holds the raw
`get('service', 'unknown')` values. -/
structure CorrelatedLogGroup where
  id : String
  correlation_type : String
  primary_log : PyDict
  related_logs : List PyDict
  correlation_strength : ℚ
  time_span : ℚ
  services_involved : List PyVal
  correlation_fields : PyDict
deriving DecidableEq, Repr

/-- The service value used throughout the correlator. -/
def svcOf (l : PyDict) : PyVal := dictGetD l "service" (vStr "unknown")

/-- The parsed timestamp of a record under the call's parse environment. -/
def tsOf (ptime : String → Option ℚ) (now : ℚ) (l : PyDict) : ℚ :=
  parse_timestamp ptime now (dictGetD l "timestamp" (vStr ""))

/-- Emission loop of `find_temporal_correlations`: for each primary (in
sorted order) collect all *other* records within the window, and emit a group
when any exist.  `avg_time_diff / time_window` raises `ZeroDivisionError`
when `time_window == 0` and a group is about to form.  `k` counts consumed
uuids. -/
def tempEmit (tw : Int) (uu : Nat → String) (all : List (Nat × PyDict × ℚ)) :
    List (Nat × PyDict × ℚ) → Nat → Except PyErr (List CorrelatedLogGroup)
  | [], _ => .ok []
  | (i, lg, t) :: rest, k =>
    let related := (all.filter
      (fun o => o.1 != i && decide (|o.2.2 - t| ≤ (tw : ℚ)))).map (fun o => o.2)
    if related.isEmpty then tempEmit tw uu all rest k
    else
      let dists := related.map (fun o => |o.2 - t|)
      if (tw : ℚ) = 0 then .error .zeroDivisionError
      else
        let avg := dists.sum / (related.length : ℚ)
        let strength := max (1/10) (1 - avg / (tw : ℚ))
        let g : CorrelatedLogGroup :=
          { id := "temporal_" ++ uu k
            correlation_type := "temporal"
            primary_log := lg
            related_logs := related.map (·.1)
            correlation_strength := strength
            time_span := listMax dists
            services_involved := firstSeenDedup (svcOf lg :: related.map (fun o => svcOf o.1))
            correlation_fields := [("time_window", vInt tw)] }
        (g :: ·) <$> tempEmit tw uu all rest (k + 1)

/-- `LogCorrelator.find_temporal_correlations`. -/
def find_temporal_correlations (ptime : String → Option ℚ) (now : ℚ)
    (uu : Nat → String) (logs : List PyDict) (tw : Int) :
    Except PyErr (List CorrelatedLogGroup) :=
  let keyed := logs.map (fun l => (l, tsOf ptime now l))
  let sorted := stableSort (fun a b => decide (a.2 ≤ b.2)) keyed
  let indexed := sorted.enum
  tempEmit tw uu indexed indexed 0

/-- Pattern-bucketing pass of `find_pattern_correlations`:
`message.lower()` raises on a non-string message; records whose message has
at least three words are bucketed under `f"{level}:{service}:{first three
lowercase words}"`. -/
def patternGroups (acc : List (String × List PyDict)) :
    List PyDict → Except PyErr (List (String × List PyDict))
  | [] => .ok acc
  | l :: rest => do
    let lowered ← pyLower (dictGetD l "message" (vStr ""))
    let words := wsSplit lowered
    let acc' :=
      if words.length ≥ 3 then
        let pat := pyStr (dictGetD l "level" (vStr "")) ++ ":"
          ++ pyStr (dictGetD l "service" (vStr "")) ++ ":"
          ++ String.intercalate " " (words.take 3)
        bumpGroup pat l acc
      else acc
    patternGroups acc' rest

/-- Emission pass of `find_pattern_correlations`: buckets with more than two
members become one group each. -/
def patternEmit (ptime : String → Option ℚ) (now : ℚ) (uu : Nat → String) :
    List (String × List PyDict) → Nat → List CorrelatedLogGroup
  | [], _ => []
  | (pat, gl) :: rest, k =>
    if gl.length > 2 then
      match gl with
      | [] => patternEmit ptime now uu rest k
      | g0 :: grest =>
        let timestamps := (g0 :: grest).map (tsOf ptime now)
        let g : CorrelatedLogGroup :=
          { id := "pattern_" ++ uu k
            correlation_type := "pattern_based"
            primary_log := g0
            related_logs := grest
            correlation_strength := min 1 ((gl.length : ℚ) / 5)
            time_span := if timestamps.length > 1 then
                listMax timestamps - listMin timestamps else 0
            services_involved := firstSeenDedup (gl.map svcOf)
            correlation_fields := [("pattern", vStr pat), ("occurrences", vInt gl.length)] }
        g :: patternEmit ptime now uu rest (k + 1)
    else patternEmit ptime now uu rest k

/-- `LogCorrelator.find_pattern_correlations`. -/
def find_pattern_correlations (ptime : String → Option ℚ) (now : ℚ)
    (uu : Nat → String) (logs : List PyDict) :
    Except PyErr (List CorrelatedLogGroup) := do
  let gs ← patternGroups [] logs
  .ok (patternEmit ptime now uu gs 0)

/-! ## Service flows -/

/-- One timeline entry of a `ServiceFlow` (message truncated to 100 chars). -/
structure TimelineEntry where
  timestamp : PyVal
  service : PyVal
  level : PyVal
  message : PyVal
deriving DecidableEq, Repr

/-- `v[:100]`: slicing raises `TypeError` unless the value is a string. -/
def pySlice100 : PyVal → Except PyErr PyVal
  | vStr s => .ok (vStr (String.mk (s.data.take 100)))
  | _ => .error .typeError

/-- `ServiceFlow` (correlation.py); `request_id` is the raw grouping value. -/
structure ServiceFlow where
  request_id : PyVal
  services : List PyVal
  timeline : List TimelineEntry
  total_duration : ℚ
  errors : List PyDict
  warnings : List PyDict
deriving DecidableEq, Repr

/-- Grouping pass of `trace_service_flows`: every truthy extracted value of
`request_id`/`trace_id`/`session_id` buckets the record under that value —
a record carrying several identifiers (or several fields with one value)
is appended once per identifier. -/
def flowGroups (acc : List (PyVal × List PyDict)) :
    List PyDict → Except PyErr (List (PyVal × List PyDict))
  | [] => .ok acc
  | l :: rest => do
    let data ← extract_correlation_fields l ["request_id", "trace_id", "session_id"]
    let acc' := data.foldl (fun a p => if pyTruthy p.2 then bumpGroup p.2 l a else a) acc
    flowGroups acc' rest

/-- Per-record walk of a flow's sorted members, accumulating
(services, timeline, errors, warnings) in source order: the timeline slice
runs before the level lowering, as in the loop body. -/
def flowWalk : List PyDict →
    List PyVal × List TimelineEntry × List PyDict × List PyDict →
    Except PyErr (List PyVal × List TimelineEntry × List PyDict × List PyDict)
  | [], st => .ok st
  | l :: rest, (svcs, tl, errs, warns) => do
    let service := svcOf l
    let svcs' := if service ∈ svcs then svcs else svcs ++ [service]
    let msg ← pySlice100 (dictGetD l "message" (vStr ""))
    let entry : TimelineEntry :=
      { timestamp := dictGetD l "timestamp" vNone
        service := service
        level := dictGetD l "level" vNone
        message := msg }
    let lvl ← pyLower (dictGetD l "level" (vStr ""))
    let (errs', warns') :=
      if lvl ∈ ["error", "critical", "fatal"] then (errs ++ [l], warns)
      else if lvl ∈ ["warn", "warning"] then (errs, warns ++ [l])
      else (errs, warns)
    flowWalk rest (svcs', tl ++ [entry], errs', warns')

/-- Emission pass of `trace_service_flows`: buckets with more than one entry
become one flow each, sorted by timestamp. -/
def flowEmit (ptime : String → Option ℚ) (now : ℚ) :
    List (PyVal × List PyDict) → Except PyErr (List ServiceFlow)
  | [] => .ok []
  | (rid, gl) :: rest =>
    if gl.length > 1 then do
      let sorted := stableSort
        (fun a b => decide (tsOf ptime now a ≤ tsOf ptime now b)) gl
      let (svcs, tl, errs, warns) ← flowWalk sorted ([], [], [], [])
      let dur := match sorted with
        | [] => 0
        | s0 :: srest => tsOf ptime now ((s0 :: srest).getLastD s0) - tsOf ptime now s0
      let flow : ServiceFlow :=
        { request_id := rid, services := svcs, timeline := tl
          total_duration := dur, errors := errs, warnings := warns }
      (flow :: ·) <$> flowEmit ptime now rest
    else flowEmit ptime now rest

/-- `LogCorrelator.trace_service_flows`. -/
def trace_service_flows (ptime : String → Option ℚ) (now : ℚ)
    (logs : List PyDict) : Except PyErr (List ServiceFlow) := do
  let groups ← flowGroups [] logs
  flowEmit ptime now groups

/-! ## Error chains -/

/-- An emitted error chain (the dict built by `detect_error_chains`). -/
structure ErrorChain where
  id : String
  length : Nat
  duration : ℚ
  services : List PyVal
  start_time : PyVal
  end_time : PyVal
  logs : List PyDict
  severity : String
deriving DecidableEq, Repr

/-- The linking test of `detect_error_chains` (lines 509–526): same
`service` value, or a shared extracted identifier field whose two values are
equal and whose candidate-side value is not `None`.  Extraction order —
candidate first, then start — matches the source. -/
def chainRelated (start cand : PyDict) : Except PyErr Bool := do
  let cd ← extract_correlation_fields cand ["request_id", "user_id", "session_id"]
  let sd ← extract_correlation_fields start ["request_id", "user_id", "session_id"]
  let svcRel := dictGetD cand "service" (vStr "") == dictGetD start "service" (vStr "")
  let fieldRel := ["request_id", "user_id", "session_id"].any (fun f =>
    match dictGet cd f, dictGet sd f with
    | some v, some w => v == w && v != vNone
    | _, _ => false)
  .ok (svcRel || fieldRel)

/-- A chain member: (input position = object identity, record, lowered level). -/
abbrev ChainLog := Nat × PyDict × String

/-- Forward scan from a chain start over the remaining sorted records:
stop at `max_chain_length` or once 600 seconds from the start are exceeded
(a hard `break`), skip consumed records, link the related ones. -/
def buildChain (ptime : String → Option ℚ) (now : ℚ) (maxLen : Int)
    (start : ChainLog) : List ChainLog → List ChainLog → List Nat →
    Except PyErr (List ChainLog × List Nat)
  | [], chain, used => .ok (chain, used)
  | c :: cs, chain, used =>
    if (chain.length : Int) ≥ maxLen then .ok (chain, used)
    else if c.1 ∈ used then buildChain ptime now maxLen start cs chain used
    else
      let tdiff := tsOf ptime now c.2.1 - tsOf ptime now start.2.1
      if tdiff > 600 then .ok (chain, used)
      else do
        let rel ← chainRelated start.2.1 c.2.1
        if rel then
          buildChain ptime now maxLen start cs (chain ++ [c]) (used ++ [c.1])
        else buildChain ptime now maxLen start cs chain used

/-- Greedy outer loop: each unconsumed record starts a chain; chains that
stay singletons are dropped. -/
def chainsLoop (ptime : String → Option ℚ) (now : ℚ) (maxLen : Int) :
    List ChainLog → List Nat → Except PyErr (List (List ChainLog))
  | [], _ => .ok []
  | t :: rest, used =>
    if t.1 ∈ used then chainsLoop ptime now maxLen rest used
    else do
      let (chain, used') ← buildChain ptime now maxLen t rest [t] (used ++ [t.1])
      let tail ← chainsLoop ptime now maxLen rest used'
      .ok (if chain.length > 1 then chain :: tail else tail)

/-- Level filter of `detect_error_chains` (the comprehension at line 469):
keeps error/critical/fatal/warning records, caching position and lowered
level; a non-string level raises. -/
def levelFilter : List (Nat × PyDict) → Except PyErr (List ChainLog)
  | [] => .ok []
  | (i, l) :: rest => do
    let lvl ← pyLower (dictGetD l "level" (vStr ""))
    let tail ← levelFilter rest
    .ok (if lvl ∈ ["error", "critical", "fatal", "warning"] then
        (i, l, lvl) :: tail else tail)

/-- Turn the raw chains into output dicts, consuming one uuid per chain. -/
def emitChains (ptime : String → Option ℚ) (now : ℚ) (uu : Nat → String) :
    List (List ChainLog) → Nat → List ErrorChain
  | [], _ => []
  | ch :: rest, k =>
    let ds := ch.map (fun t => t.2.1)
    let dur := match ds with
      | [] => 0
      | d0 :: drest =>
        tsOf ptime now ((d0 :: drest).getLastD d0) - tsOf ptime now d0
    let chain : ErrorChain :=
      { id := "chain_" ++ uu k
        length := ds.length
        duration := dur
        services := firstSeenDedup (ds.map svcOf)
        start_time := dictGetD (ds.headD []) "timestamp" vNone
        end_time := dictGetD (ds.getLastD []) "timestamp" vNone
        logs := ds
        severity := if ch.any (fun t => t.2.2 ∈ ["critical", "fatal"])
          then "critical" else "high" }
    chain :: emitChains ptime now uu rest (k + 1)

/-- Descending, stable ordering by (length, duration) — Python's
`sort(key=..., reverse=True)`. -/
def chainKeyGE (x y : ErrorChain) : Bool :=
  (x.length > y.length) ||
    (x.length == y.length && decide (x.duration ≥ y.duration))

/-- The `/detect-chains` analysis (the route body without the HTTP wrapper):
returns the `"chains"` value — empty when no error-level logs exist, else the
detected chains sorted by (length, duration) descending, capped to 10. -/
def detect_error_chains (ptime : String → Option ℚ) (now : ℚ)
    (uu : Nat → String) (logs : List PyDict) (maxLen : Int) :
    Except PyErr (List ErrorChain) := do
  let errorLogs ← levelFilter logs.enum
  if errorLogs.isEmpty then .ok []
  else
    let sorted := stableSort
      (fun a b => decide (tsOf ptime now a.2.1 ≤ tsOf ptime now b.2.1)) errorLogs
    let rawChains ← chainsLoop ptime now maxLen sorted []
    .ok ((stableSort chainKeyGE (emitChains ptime now uu rawChains 0)).take 10)

/-! ## Anomaly detection (anomalies.py) -/

/-- `AnomalyDetector.baseline_data`: the three series the tracker keeps. -/
structure BaselineState where
  hourly_volume : List ℚ
  error_rate : List ℚ
  response_times : List ℚ
deriving DecidableEq, Repr

/-- `AnomalyConfig` (the unvalidated pydantic model). -/
structure AnomalyConfig where
  enabled : Bool
  sensitivity : ℚ
  time_window : Int
  min_samples : Int
  detection_methods : List String
deriving DecidableEq, Repr

/-- An emitted `Anomaly`.  The identifier, free-text description and numeric
evidence mapping are wall-clock/formatting payload no claim depends on and
are omitted. -/
structure Anomaly where
  type : String
  severity : String
  affected_logs : List PyDict
  confidence : ℚ
deriving DecidableEq, Repr

/-- `defaultdict(int)` increment, keys kept in insertion order
(`hourly_counts`). -/
def bumpCount (h : Nat) : List (Nat × Nat) → List (Nat × Nat)
  | [] => [(h, 1)]
  | (h', n) :: rest =>
    if h' = h then (h', n + 1) :: rest else (h', n) :: bumpCount h rest

/-- One record of `update_baseline`'s loop.  `log.get('level','').lower()`
runs before the `try`, so a non-string level raises; everything inside the
`try` (timestamp parse, response-time scrape) is swallowed — a record whose
timestamp fails to parse contributes nothing, and a record whose message is
not a string keeps its hour/error contributions but no response sample. -/
def ubStep (isoHour : String → Option Nat) (floatParse : String → Option ℚ)
    (st : List (Nat × Nat) × List ℚ × List ℚ) (l : PyDict) :
    Except PyErr (List (Nat × Nat) × List ℚ × List ℚ) := do
  let (hours, errs, resps) := st
  let lvl ← pyLower (dictGetD l "level" (vStr ""))
  match dictGetD l "timestamp" (vStr "") with
  | vStr ts =>
    match isoHour ts with
    | some h =>
      let hours' := bumpCount h hours
      let errs' := errs ++ [if lvl ∈ ["error", "critical", "fatal"] then (1 : ℚ) else 0]
      let resps' :=
        match dictGetD l "message" (vStr "") with
        | vStr msg =>
          if strContains "response_time" msg then
            match pySplitOn msg "response_time" with
            | _ :: p1 :: _ =>
              match wsSplit p1 with
              | [] => resps
              | t :: _ =>
                match floatParse (pyReplace (pyReplace t "ms" "") ":" "") with
                | some q => resps ++ [q]
                | none => resps
            | _ => resps
          else resps
        | _ => resps
      .ok (hours', errs', resps')
    | none => .ok st
  | _ => .ok st

/-- Loop of `update_baseline` over the batch. -/
def ubLoop (isoHour : String → Option Nat) (floatParse : String → Option ℚ) :
    List PyDict → List (Nat × Nat) × List ℚ × List ℚ →
    Except PyErr (List (Nat × Nat) × List ℚ × List ℚ)
  | [], st => .ok st
  | l :: rest, st => do
    let st' ← ubStep isoHour floatParse st l
    ubLoop isoHour floatParse rest st'

/-- `AnomalyDetector.update_baseline`: no-op on an empty batch, otherwise all
three series are assigned fresh from the batch (`self.baseline_data[...] =`),
never merged with the previous state. -/
def update_baseline (isoHour : String → Option Nat)
    (floatParse : String → Option ℚ) (st : BaselineState) (logs : List PyDict) :
    Except PyErr BaselineState :=
  if logs.isEmpty then .ok st
  else do
    let (hours, errs, resps) ← ubLoop isoHour floatParse logs ([], [], [])
    .ok { hourly_volume := hours.map (fun p => (p.2 : ℚ))
          error_rate := errs
          response_times := resps }

/-- `min(0.95, num/den)` on numpy floats: when `den` is `0.0` the division
yields `+inf` (each call site guards `num > 0`), which the `min` caps at
`0.95`; otherwise ordinary division. -/
def minConf95 (num den : ℚ) : ℚ :=
  if den = 0 then 19/20 else min (19/20) (num / den)

/-- `AnomalyDetector.detect_volume_anomalies`.  `sqrtQ` abstracts the float
square root inside `np.std` (applied to the population variance). -/
def detect_volume_anomalies (cfg : AnomalyConfig) (bl : BaselineState)
    (sqrtQ : ℚ → ℚ) (logs : List PyDict) : List Anomaly :=
  if (logs.length : Int) < cfg.min_samples then []
  else
    let current_volume : ℚ := logs.length
    let baseline_volumes := bl.hourly_volume
    if baseline_volumes.length < 5 then []
    else
      let baseline_mean := qmean baseline_volumes
      let baseline_std := sqrtQ (qvariance baseline_volumes)
      let threshold := baseline_mean + 2 * baseline_std * cfg.sensitivity
      let low_threshold := max 0 (baseline_mean - 2 * baseline_std * cfg.sensitivity)
      if current_volume > threshold then
        [{ type := "volume"
           severity := if current_volume > threshold * (3/2) then "high" else "medium"
           affected_logs := logs.take 10
           confidence := minConf95 (current_volume - threshold) threshold }]
      else if current_volume < low_threshold then
        [{ type := "volume"
           severity := if current_volume < low_threshold * (1/2) then "medium" else "low"
           affected_logs := logs
           confidence := minConf95 (low_threshold - current_volume) low_threshold }]
      else []

/-- First pass of `detect_pattern_anomalies`: lower every record's level
(caching it), raising on a non-string level. -/
def lowerLevels : List PyDict → Except PyErr (List (PyDict × String))
  | [] => .ok []
  | l :: rest => do
    let lvl ← pyLower (dictGetD l "level" (vStr ""))
    ((l, lvl) :: ·) <$> lowerLevels rest

/-- Message pass of `detect_pattern_anomalies`: lower every record's message
(caching it), raising on a non-string message. -/
def lowerMsgs : List PyDict → Except PyErr (List (PyDict × String))
  | [] => .ok []
  | l :: rest => do
    let m ← pyLower (dictGetD l "message" (vStr ""))
    ((l, m) :: ·) <$> lowerMsgs rest

/-- `Counter` increment, keys kept in insertion order. -/
def bumpCounter (k : String) : List (String × Nat) → List (String × Nat)
  | [] => [(k, 1)]
  | (k', n) :: rest =>
    if k' = k then (k', n + 1) :: rest else (k', n) :: bumpCounter k rest

/-- The `message_patterns` counter: only records whose lowered message has
strictly more than three words contribute, under the first three words. -/
def messagePatterns (pairs : List (PyDict × String)) : List (String × Nat) :=
  pairs.foldl (fun acc p =>
    let words := wsSplit p.2
    if words.length > 3 then
      bumpCounter (String.intercalate " " (words.take 3)) acc
    else acc) []

/-- The repeated-pattern emission of `detect_pattern_anomalies`: one
medium-severity anomaly per counter entry whose frequency exceeds 10% of the
batch and whose count exceeds 5. -/
def repeatedPatternAnomalies (total : Nat) (pairs : List (PyDict × String)) :
    List (String × Nat) → List Anomaly
  | [] => []
  | (pat, count) :: rest =>
    let freq : ℚ := (count : ℚ) / total
    if freq > 1/10 && decide ((count : Nat) > 5) then
      { type := "pattern"
        severity := "medium"
        affected_logs := ((pairs.filter (fun p => strContains pat p.2)).map (·.1)).take 5
        confidence := min (9/10) (freq * 2) }
        :: repeatedPatternAnomalies total pairs rest
    else repeatedPatternAnomalies total pairs rest

/-- `AnomalyDetector.detect_pattern_anomalies`: the error-rate check (which
needs ≥ 10 baseline samples — returning before the repeated-pattern check
otherwise) followed by the repeated-pattern check. -/
def detect_pattern_anomalies (cfg : AnomalyConfig) (bl : BaselineState)
    (logs : List PyDict) : Except PyErr (List Anomaly) := do
  let lv ← lowerLevels logs
  let errorPairs := lv.filter (fun p => p.2 ∈ ["error", "critical", "fatal"])
  let error_rate : ℚ :=
    if logs.length = 0 then 0 else (errorPairs.length : ℚ) / logs.length
  if bl.error_rate.length < 10 then .ok []
  else
    let baseline_error_rate := qmean bl.error_rate
    let error_threshold := baseline_error_rate + (1/10) * cfg.sensitivity
    let errAnoms : List Anomaly :=
      if error_rate > error_threshold then
        [{ type := "pattern"
           severity := if error_rate > 1/2 then "critical"
             else if error_rate > 1/5 then "high" else "medium"
           affected_logs := (errorPairs.map (·.1)).take 10
           confidence := minConf95 (error_rate - error_threshold) error_threshold }]
      else []
    let mp ← lowerMsgs logs
    .ok (errAnoms ++ repeatedPatternAnomalies logs.length mp (messagePatterns mp))

/-- `AnomalyDetector.analyze_logs`: nothing when disabled, else the enabled
methods' outputs concatenated in {volume, pattern} order. -/
def analyze_logs (cfg : AnomalyConfig) (bl : BaselineState) (sqrtQ : ℚ → ℚ)
    (logs : List PyDict) : Except PyErr (List Anomaly) :=
  if !cfg.enabled then .ok []
  else do
    let v := if cfg.detection_methods.contains "volume" then
        detect_volume_anomalies cfg bl sqrtQ logs else []
    let p ← if cfg.detection_methods.contains "pattern" then
        detect_pattern_anomalies cfg bl logs else pure []
    .ok (v ++ p)

/-! ## Concrete fixtures for witnesses and counterexamples -/

/-- A concrete parse oracle: timestamps "0" / "50" / "100" / "700" parse to
those instants (seconds), everything else fails to parse. -/
def sampleParse : String → Option ℚ := fun s =>
  if s = "0" then some 0 else if s = "50" then some 50
  else if s = "100" then some 100 else if s = "700" then some 700 else none

/-- A uuid stream that always draws "a". -/
def uuidA : Nat → String := fun _ => "a"

/-- A uuid stream that always draws "b". -/
def uuidB : Nat → String := fun _ => "b"

/-- A minimal well-formed record. -/
def mkLog (ts lv sv msg : String) : PyDict :=
  [("timestamp", vStr ts), ("level", vStr lv), ("service", vStr sv),
   ("message", vStr msg)]

/-- Three records at t = 0, 50, 100 — the middle one sees related records on
both sides. -/
def tempLogs : List PyDict :=
  [mkLog "0" "info" "a" "m", mkLog "50" "info" "b" "m", mkLog "100" "info" "c" "m"]

/-- Fallback group value for safe list indexing in closed statements. -/
def dfltGroup : CorrelatedLogGroup :=
  { id := "", correlation_type := "", primary_log := [], related_logs := []
    correlation_strength := 0, time_span := 0, services_involved := []
    correlation_fields := [] }

/-- Fallback chain value for safe list indexing in closed statements. -/
def dfltChain : ErrorChain :=
  { id := "", length := 0, duration := 0, services := [], start_time := vNone
    end_time := vNone, logs := [], severity := "" }

/-- Fallback anomaly value for safe list indexing in closed statements. -/
def dfltAnomaly : Anomaly :=
  { type := "", severity := "", affected_logs := [], confidence := 0 }

/-- The §8-scenario configuration: sensitivity 1, min_samples 5. -/
def scenarioConfig : AnomalyConfig :=
  { enabled := true, sensitivity := 1, time_window := 3600, min_samples := 5
    detection_methods := ["volume", "pattern"] }

/-- The §8-scenario baseline: hourly volume [10,10,10,10,10]. -/
def scenarioBaseline : BaselineState :=
  { hourly_volume := [10, 10, 10, 10, 10], error_rate := [], response_times := [] }

/-- The quantity the claim asserts `time_span` to be, in the spec's §3 words:
seconds between the earliest and the latest record of the group (primary
plus related logs). -/
def groupEarliestLatestSpan (ptime : String → Option ℚ) (now : ℚ)
    (g : CorrelatedLogGroup) : ℚ :=
  let ts := (g.primary_log :: g.related_logs).map (tsOf ptime now)
  listMax ts - listMin ts

/-- A pair in the temporal loop carries a record with its parsed time. -/
def keyedOk (ptime : String → Option ℚ) (now : ℚ)
    (o : Nat × PyDict × ℚ) : Prop :=
  o.2.2 = tsOf ptime now o.2.1

/-- The temporal groups emitted for `tempLogs` under the sample environment. -/
def c1Groups : List CorrelatedLogGroup :=
  (find_temporal_correlations sampleParse 999 uuidA tempLogs 300).toOption.getD []

/-- A group with its freshly drawn uuid id erased. -/
def eraseGroupId (g : CorrelatedLogGroup) : CorrelatedLogGroup :=
  { g with id := "" }

/-- The C9 witness record: `request_id` and `trace_id` both hold `"r1"`. -/
def c9Log : PyDict :=
  [("timestamp", vStr "50"), ("level", vStr "info"), ("service", vStr "api"),
   ("request_id", vStr "r1"), ("trace_id", vStr "r1"), ("message", vStr "m")]

/-- The C10 witness batch: six identical records, message "a b c". -/
def c10Logs : List PyDict := List.replicate 6 (mkLog "0" "info" "db" "a b c")

/-- The linking condition as the claim states it: shared `service` value, or
a shared identifier field whose extracted values are equal and non-null and
non-empty on both sides.  Written from the spec's words, to be compared with
the source's `chainRelated`. -/
def specLinkCond (start cand : PyDict) : Bool :=
  (dictGetD cand "service" (vStr "") == dictGetD start "service" (vStr "")) ||
  (match extract_correlation_fields cand ["request_id", "user_id", "session_id"],
      extract_correlation_fields start ["request_id", "user_id", "session_id"] with
   | .ok cd, .ok sd =>
     ["request_id", "user_id", "session_id"].any (fun f =>
       match dictGet cd f, dictGet sd f with
       | some v, some w => v == w && !(v == vNone) && !(w == vNone) &&
           !(v == vStr "") && !(w == vStr "")
       | _, _ => false)
   | _, _ => false)

/-- A record with level ERROR, service "a", and a *direct* `request_id` field
holding the empty string. -/
def chainLogA : PyDict :=
  [("timestamp", vStr "0"), ("level", vStr "error"), ("service", vStr "a"),
   ("request_id", vStr ""), ("message", vStr "m")]

/-- Like `chainLogA` but at t = 50 with service "b". -/
def chainLogB : PyDict :=
  [("timestamp", vStr "50"), ("level", vStr "error"), ("service", vStr "b"),
   ("request_id", vStr ""), ("message", vStr "m")]

/-- The chains detected for the two empty-`request_id` records. -/
def c2Chains : List ErrorChain :=
  (detect_error_chains sampleParse 999 uuidA [chainLogA, chainLogB]
    10).toOption.getD []

/-! ## Sanity checks of the field extractor -/

-- sanity: direct field wins, message scan strips punctuation
example :
    extract_correlation_fields
      [("request_id", vStr "abc"), ("message", vStr "x")] ["request_id"] =
    .ok [("request_id", vStr "abc")] := by decide

example :
    extract_correlation_fields
      [("message", vStr "call request_id=[r42] done")] ["request_id"] =
    .ok [("request_id", vStr "r42")] := by decide

example :
    extract_correlation_fields [("message", vNone)] ["request_id"] =
    .error .typeError := by decide

-- the token right after the split is ":" which strips to empty and is
-- discarded, so "user_id: u7" yields nothing while "user_id u7" yields "u7"
example :
    extract_correlation_fields [("message", vStr "user_id: u7 ok")]
      ["user_id", "session_id"] = .ok [] := by decide

example :
    extract_correlation_fields [("message", vStr "user_id u7 ok")]
      ["user_id", "session_id"] =
    .ok [("user_id", vStr "u7")] := by decide

/-! ## C6 — the core raises on a null message field -/

/-- C6: the claim that the core analysis functions never raise on malformed
records is contradicted by the code: a record whose `message` field is null
makes `find_pattern_correlations` raise `AttributeError` (from
`message.lower()`), and makes `extract_correlation_fields` raise `TypeError`
(from `'request_id' in message`). -/
theorem c6_message_none_raises :
    find_pattern_correlations sampleParse 0 uuidA [[("message", vNone)]] =
      .error .attrError ∧
    extract_correlation_fields [("message", vNone)] ["request_id"] =
      .error .typeError := by
  decide

/-! ## C3 — the high-volume scenario -/

/-- C3: with baseline hourly volume [10,10,10,10,10] (mean 10, std 0),
sensitivity 1 and min_samples 5, a 20-record batch trips the high-volume
branch: exactly one anomaly, severity "high" (20 > 1.5·10), confidence
min(0.95, (20 − 10)/10), affected logs = the first 10 of the batch. -/
theorem c3_volume_scenario (logs : List PyDict) (sqrtQ : ℚ → ℚ)
    (hlen : logs.length = 20) (hsq : sqrtQ 0 = 0) :
    detect_volume_anomalies scenarioConfig scenarioBaseline sqrtQ logs =
      [{ type := "volume", severity := "high", affected_logs := logs.take 10
         confidence := min (19/20) ((20 - 10) / 10) }] := by
  have hmean : qmean [(10 : ℚ), 10, 10, 10, 10] = 10 := by norm_num [qmean]
  have hvar : qvariance [(10 : ℚ), 10, 10, 10, 10] = 0 := by
    norm_num [qvariance, qmean]
  simp only [detect_volume_anomalies, scenarioConfig, scenarioBaseline, hlen,
    hmean, hvar, hsq, minConf95]
  norm_num

theorem c3_volume_scenario_witness :
    detect_volume_anomalies scenarioConfig scenarioBaseline (fun _ => 0)
      (List.replicate 20 ([] : PyDict)) =
      [{ type := "volume", severity := "high"
         affected_logs := (List.replicate 20 ([] : PyDict)).take 10
         confidence := min (19/20) ((20 - 10) / 10) }] :=
  c3_volume_scenario (List.replicate 20 ([] : PyDict)) (fun _ => 0)
    (by decide) rfl

/-! ## C7 — unmet preconditions yield the empty result -/

/-- C7: a batch smaller than `min_samples` or a baseline with fewer than 5
hourly-volume samples makes `detect_volume_anomalies` return the empty list,
and a disabled config makes `analyze_logs` return the empty list; none of
these paths signals an error. -/
theorem c7_preconditions_empty (cfg : AnomalyConfig) (bl : BaselineState)
    (sqrtQ : ℚ → ℚ) (logs : List PyDict) :
    ((logs.length : Int) < cfg.min_samples →
      detect_volume_anomalies cfg bl sqrtQ logs = []) ∧
    (bl.hourly_volume.length < 5 →
      detect_volume_anomalies cfg bl sqrtQ logs = []) ∧
    (cfg.enabled = false → analyze_logs cfg bl sqrtQ logs = .ok []) := by
  refine ⟨fun h => ?_, fun h => ?_, fun h => ?_⟩
  · simp [detect_volume_anomalies, h]
  · by_cases hlen : (logs.length : Int) < cfg.min_samples <;>
      simp [detect_volume_anomalies, hlen, h]
  · simp [analyze_logs, h]

theorem c7_preconditions_empty_witness :
    detect_volume_anomalies scenarioConfig
      { hourly_volume := [], error_rate := [], response_times := [] }
      (fun _ => 0) [] = [] ∧
    analyze_logs { scenarioConfig with enabled := false } scenarioBaseline
      (fun _ => 0) [] = .ok [] :=
  ⟨(c7_preconditions_empty scenarioConfig
      { hourly_volume := [], error_rate := [], response_times := [] }
      (fun _ => 0) []).1 (by decide),
   (c7_preconditions_empty { scenarioConfig with enabled := false }
      scenarioBaseline (fun _ => 0) []).2.2 rfl⟩

/-! ## C8 — baseline replacement semantics -/

/-- C8: `update_baseline` on an empty batch keeps the previous baseline
untouched; on a non-empty batch its result does not depend on the previous
baseline at all — the three series are recomputed from the batch alone and
assigned wholesale, never merged. -/
theorem c8_baseline_replaced (isoHour : String → Option Nat)
    (floatParse : String → Option ℚ) (st st' : BaselineState)
    (logs : List PyDict) :
    update_baseline isoHour floatParse st [] = .ok st ∧
    (logs ≠ [] →
      update_baseline isoHour floatParse st logs =
        update_baseline isoHour floatParse st' logs) := by
  constructor
  · simp [update_baseline]
  · intro h
    simp [update_baseline, List.isEmpty_iff, h]

theorem c8_baseline_replaced_witness :
    update_baseline (fun _ => some 3) (fun _ => none) scenarioBaseline [] =
      .ok scenarioBaseline ∧
    update_baseline (fun _ => some 3) (fun _ => none) scenarioBaseline
        [mkLog "0" "error" "a" "m"] =
      update_baseline (fun _ => some 3) (fun _ => none)
        { hourly_volume := [], error_rate := [], response_times := [] }
        [mkLog "0" "error" "a" "m"] :=
  ⟨(c8_baseline_replaced (fun _ => some 3) (fun _ => none) scenarioBaseline
      { hourly_volume := [], error_rate := [], response_times := [] } []).1,
   (c8_baseline_replaced (fun _ => some 3) (fun _ => none) scenarioBaseline
      { hourly_volume := [], error_rate := [], response_times := [] }
      [mkLog "0" "error" "a" "m"]).2 (by decide)⟩

/-! ## List lemmas about the sorting/fold primitives -/

theorem mem_stableInsert (le : α → α → Bool) (x a : α) (l : List α) :
    a ∈ stableInsert le x l ↔ a = x ∨ a ∈ l := by
  induction l with
  | nil => simp [stableInsert]
  | cons y ys ih =>
    simp only [stableInsert]
    cases hle : le y x
    · simp [ih]
    · simp [ih]
      tauto

theorem mem_stableSort (le : α → α → Bool) (l : List α) (a : α) :
    a ∈ stableSort le l ↔ a ∈ l := by
  suffices H : ∀ acc : List α,
      a ∈ l.foldl (fun acc x => stableInsert le x acc) acc ↔ a ∈ acc ∨ a ∈ l by
    simpa [stableSort] using H []
  induction l with
  | nil => intro acc; simp
  | cons x xs ih =>
    intro acc
    rw [List.foldl_cons, ih, mem_stableInsert]
    simp only [List.mem_cons]
    tauto

theorem le_foldl_max (a : ℚ) (l : List ℚ) : a ≤ l.foldl max a := by
  induction l generalizing a with
  | nil => simp
  | cons x xs ih => exact le_trans (le_max_left a x) (ih (max a x))

theorem mem_le_foldl_max {x : ℚ} (a : ℚ) {l : List ℚ} (h : x ∈ l) :
    x ≤ l.foldl max a := by
  induction l generalizing a with
  | nil => cases h
  | cons y ys ih =>
    rcases List.mem_cons.mp h with rfl | h'
    · exact le_trans (le_max_right a x) (le_foldl_max _ ys)
    · exact ih _ h'

theorem foldl_max_le {a c : ℚ} {l : List ℚ} (ha : a ≤ c)
    (h : ∀ x ∈ l, x ≤ c) : l.foldl max a ≤ c := by
  induction l generalizing a with
  | nil => simpa using ha
  | cons x xs ih =>
    exact ih (max_le ha (h x (by simp))) (fun y hy => h y (by simp [hy]))

theorem le_listMax {x : ℚ} {l : List ℚ} (h : x ∈ l) : x ≤ listMax l := by
  cases l with
  | nil => cases h
  | cons y ys =>
    rcases List.mem_cons.mp h with rfl | h'
    · exact le_foldl_max x ys
    · exact mem_le_foldl_max y h'

theorem listMax_le {c : ℚ} {l : List ℚ} (hne : l ≠ [])
    (h : ∀ x ∈ l, x ≤ c) : listMax l ≤ c := by
  cases l with
  | nil => exact absurd rfl hne
  | cons y ys =>
    exact foldl_max_le (h y (by simp)) (fun x hx => h x (by simp [hx]))

theorem foldl_min_le (a : ℚ) (l : List ℚ) : l.foldl min a ≤ a := by
  induction l generalizing a with
  | nil => simp
  | cons x xs ih => exact le_trans (ih (min a x)) (min_le_left a x)

theorem mem_foldl_min_le {x : ℚ} (a : ℚ) {l : List ℚ} (h : x ∈ l) :
    l.foldl min a ≤ x := by
  induction l generalizing a with
  | nil => cases h
  | cons y ys ih =>
    rcases List.mem_cons.mp h with rfl | h'
    · exact le_trans (foldl_min_le _ ys) (min_le_right a x)
    · exact ih _ h'

theorem listMin_le {x : ℚ} {l : List ℚ} (h : x ∈ l) : listMin l ≤ x := by
  cases l with
  | nil => cases h
  | cons y ys =>
    rcases List.mem_cons.mp h with rfl | h'
    · exact foldl_min_le x ys
    · exact mem_foldl_min_le y h'

/-! ## C1 — what `time_span` actually is for temporal groups -/

theorem tempEmit_time_span (ptime : String → Option ℚ) (now : ℚ) (tw : Int)
    (uu : Nat → String) (all : List (Nat × PyDict × ℚ))
    (hall : ∀ o ∈ all, keyedOk ptime now o) :
    ∀ rest k gs, (∀ o ∈ rest, keyedOk ptime now o) →
      tempEmit tw uu all rest k = .ok gs →
      ∀ g ∈ gs, g.related_logs ≠ [] ∧
        g.time_span = listMax (g.related_logs.map
          (fun r => |tsOf ptime now r - tsOf ptime now g.primary_log|)) ∧
        g.time_span ≤ groupEarliestLatestSpan ptime now g := by
  intro rest
  induction rest with
  | nil =>
    intro k gs _ heq g hg
    simp only [tempEmit] at heq
    cases heq
    cases hg
  | cons o rest ih =>
    obtain ⟨i, lg, t⟩ := o
    intro k gs hrest heq g hg
    have ht : t = tsOf ptime now lg := hrest (i, lg, t) (by simp)
    have hrest' : ∀ o ∈ rest, keyedOk ptime now o :=
      fun o ho => hrest o (by simp [ho])
    simp only [tempEmit] at heq
    set related := (all.filter
      (fun o => o.1 != i && decide (|o.2.2 - t| ≤ (tw : ℚ)))).map
      (fun o => o.2) with hrel
    -- every related pair carries its record's parsed time
    have hrelok : ∀ p ∈ related, p.2 = tsOf ptime now p.1 := by
      intro p hp
      rw [hrel] at hp
      obtain ⟨o0, ho0, rfl⟩ := List.mem_map.mp hp
      exact hall o0 (List.mem_filter.mp ho0).1
    by_cases hre : related.isEmpty
    · rw [if_pos hre] at heq
      exact ih k gs hrest' heq g hg
    · rw [if_neg hre] at heq
      by_cases htw : (tw : ℚ) = 0
      · rw [if_pos htw] at heq; cases heq
      · rw [if_neg htw] at heq
        obtain ⟨gtail, htail, rfl⟩ :
            ∃ gtail, tempEmit tw uu all rest (k + 1) = .ok gtail ∧
              gs = _ :: gtail := by
          cases htemp : tempEmit tw uu all rest (k + 1) with
          | error e => rw [htemp] at heq; cases heq
          | ok gtail =>
            rw [htemp] at heq
            cases heq
            exact ⟨gtail, rfl, rfl⟩
        rcases List.mem_cons.mp hg with rfl | hgtail
        · -- the group emitted at this step
          have hrne : related ≠ [] := by
            simpa [List.isEmpty_iff] using hre
          have hmapne : related.map (·.1) ≠ [] := by
            simpa using hrne
          refine ⟨hmapne, ?_, ?_⟩
          · -- recomputed distances agree with the cached ones
            have : (related.map (·.1)).map
                (fun r => |tsOf ptime now r - tsOf ptime now lg|) =
                related.map (fun o => |o.2 - t|) := by
              rw [List.map_map]
              refine List.map_congr_left ?_
              intro p hp
              simp only [Function.comp]
              rw [hrelok p hp, ht]
            simp [this]
          · -- bounded by the earliest-to-latest span of the whole group
            set dists := related.map (fun o => |o.2 - t|) with hd
            set ts := (lg :: related.map (·.1)).map (tsOf ptime now) with hts
            have hdne : dists ≠ [] := by simpa [hd] using hrne
            have hmem_p : tsOf ptime now lg ∈ ts := by simp [hts]
            refine listMax_le hdne ?_
            intro x hx
            rw [hd] at hx
            obtain ⟨p, hp, rfl⟩ := List.mem_map.mp hx
            have hmem_r : tsOf ptime now p.1 ∈ ts := by
              rw [hts]
              simp only [List.map_cons, List.mem_cons, List.map_map]
              right
              exact List.mem_map.mpr ⟨p, hp, rfl⟩
            rw [hrelok p hp, ht, groupEarliestLatestSpan]
            simp only
            rw [abs_sub_le_iff]
            constructor
            · exact sub_le_sub (le_listMax hmem_r) (listMin_le hmem_p)
            · exact sub_le_sub (le_listMax hmem_p) (listMin_le hmem_r)
        · exact ih (k + 1) gtail hrest' htail g hgtail

/-- C1 (amended): for every emitted temporal group, `time_span` is the
maximum absolute distance in seconds from the primary to a related log —
not the earliest-to-latest span of the whole group, which only bounds it
from above. -/
theorem c1_time_span_max_distance (ptime : String → Option ℚ) (now : ℚ)
    (uu : Nat → String) (logs : List PyDict) (tw : Int)
    (gs : List CorrelatedLogGroup)
    (h : find_temporal_correlations ptime now uu logs tw = .ok gs) :
    ∀ g ∈ gs, g.related_logs ≠ [] ∧
      g.time_span = listMax (g.related_logs.map
        (fun r => |tsOf ptime now r - tsOf ptime now g.primary_log|)) ∧
      g.time_span ≤ groupEarliestLatestSpan ptime now g := by
  have hkeyed : ∀ o ∈ (stableSort (fun a b => decide (a.2 ≤ b.2))
      (logs.map (fun l => (l, tsOf ptime now l)))).enum,
      keyedOk ptime now o := by
    intro o ho
    have h1 : o.2 ∈ stableSort (fun a b => decide (a.2 ≤ b.2))
        (logs.map (fun l => (l, tsOf ptime now l))) :=
      List.snd_mem_of_mem_enum ho
    have h2 := (mem_stableSort _ _ _).mp h1
    obtain ⟨l, _, hl⟩ := List.mem_map.mp h2
    unfold keyedOk
    rw [← hl]
  exact tempEmit_time_span ptime now tw uu _ hkeyed _ 0 gs hkeyed h

/-- C1 (counterexample): for the middle record of `tempLogs` (t = 50, with
related records at t = 0 and t = 100 inside the 300 s window) the emitted
`time_span` is 50 — the maximum distance from the primary — while the span
between the earliest and the latest record of the group is 100. -/
theorem c1_counterexample :
    ¬ (∀ (ptime : String → Option ℚ) (now : ℚ) (uu : Nat → String)
        (logs : List PyDict) (tw : Int) (gs : List CorrelatedLogGroup),
        find_temporal_correlations ptime now uu logs tw = .ok gs →
        ∀ g ∈ gs, g.time_span = groupEarliestLatestSpan ptime now g) := by
  intro h
  have heq : find_temporal_correlations sampleParse 999 uuidA tempLogs 300 =
      .ok c1Groups := by decide
  have hmem : c1Groups.getD 1 dfltGroup ∈ c1Groups := by decide
  have := h sampleParse 999 uuidA tempLogs 300 c1Groups heq
    (c1Groups.getD 1 dfltGroup) hmem
  exact absurd this (by decide)

theorem c1_time_span_max_distance_witness :
    (c1Groups.getD 1 dfltGroup).related_logs ≠ [] ∧
    (c1Groups.getD 1 dfltGroup).time_span =
      listMax ((c1Groups.getD 1 dfltGroup).related_logs.map
        (fun r => |tsOf sampleParse 999 r -
          tsOf sampleParse 999 (c1Groups.getD 1 dfltGroup).primary_log|)) ∧
    (c1Groups.getD 1 dfltGroup).time_span ≤
      groupEarliestLatestSpan sampleParse 999 (c1Groups.getD 1 dfltGroup) :=
  c1_time_span_max_distance sampleParse 999 uuidA tempLogs 300 c1Groups
    (by decide) (c1Groups.getD 1 dfltGroup) (by decide)

/-! ## C5 — two calls agree only up to the fresh group ids -/

/-- C5 (counterexample): two calls on the same immutable batch draw different
uuids, so the emitted groups differ (in their `id` fields). -/
theorem c5_counterexample :
    ¬ (∀ (ptime : String → Option ℚ) (logs : List PyDict) (tw : Int)
        (now now' : ℚ) (uu uu' : Nat → String),
        find_temporal_correlations ptime now uu logs tw =
          find_temporal_correlations ptime now' uu' logs tw) := by
  intro h
  exact absurd (h sampleParse tempLogs 300 999 999 uuidA uuidB) (by decide)

theorem tempEmit_eraseId (tw : Int) (uu uu' : Nat → String)
    (all : List (Nat × PyDict × ℚ)) :
    ∀ rest k k',
      (tempEmit tw uu all rest k).map (List.map eraseGroupId) =
      (tempEmit tw uu' all rest k').map (List.map eraseGroupId) := by
  intro rest
  induction rest with
  | nil => intro k k'; rfl
  | cons o rest ih =>
    obtain ⟨i, lg, t⟩ := o
    intro k k'
    simp only [tempEmit]
    by_cases hre : ((all.filter
        (fun o => o.1 != i && decide (|o.2.2 - t| ≤ (tw : ℚ)))).map
        (fun o => o.2)).isEmpty
    · rw [if_pos hre, if_pos hre]
      exact ih k k'
    · rw [if_neg hre, if_neg hre]
      by_cases htw : (tw : ℚ) = 0
      · rw [if_pos htw, if_pos htw]
      · rw [if_neg htw, if_neg htw]
        have h1 := ih (k + 1) (k' + 1)
        cases he : tempEmit tw uu all rest (k + 1) with
        | error e =>
          cases he' : tempEmit tw uu' all rest (k' + 1) with
          | error e' =>
            rw [he, he'] at h1
            simp only [Except.map] at h1
            cases h1
            rfl
          | ok tl' =>
            rw [he, he'] at h1
            simp [Except.map] at h1
        | ok tl =>
          cases he' : tempEmit tw uu' all rest (k' + 1) with
          | error e' =>
            rw [he, he'] at h1
            simp [Except.map] at h1
          | ok tl' =>
            rw [he, he'] at h1
            simp only [Except.map, Except.ok.injEq] at h1
            show Except.ok ((_ :: tl).map eraseGroupId) =
              Except.ok ((_ :: tl').map eraseGroupId)
            simp only [List.map_cons, h1, Except.ok.injEq, List.cons.injEq]
            exact ⟨rfl, trivial⟩

/-- C5 (amended): when every timestamp in the batch parses (so the `now`
fallback of `parse_timestamp` is never consulted), two calls on the same
immutable batch — with their own wall clocks and their own uuid draws —
yield the same groups in the same order, identical in every field except
the freshly generated `id`. -/
theorem c5_deterministic_modulo_ids (ptime : String → Option ℚ)
    (logs : List PyDict) (tw : Int) (now now' : ℚ) (uu uu' : Nat → String)
    (hp : ∀ l ∈ logs, ∃ s q,
      dictGetD l "timestamp" (vStr "") = vStr s ∧ ptime s = some q) :
    (find_temporal_correlations ptime now uu logs tw).map
      (List.map eraseGroupId) =
    (find_temporal_correlations ptime now' uu' logs tw).map
      (List.map eraseGroupId) := by
  have hkey : logs.map (fun l => (l, tsOf ptime now l)) =
      logs.map (fun l => (l, tsOf ptime now' l)) := by
    refine List.map_congr_left ?_
    intro l hl
    obtain ⟨s, q, hs, hq⟩ := hp l hl
    simp [tsOf, parse_timestamp, hs, hq]
  simp only [find_temporal_correlations]
  rw [hkey]
  exact tempEmit_eraseId tw uu uu' _ _ 0 0

theorem c5_deterministic_modulo_ids_witness :
    (find_temporal_correlations sampleParse 999 uuidA tempLogs 300).map
      (List.map eraseGroupId) =
    (find_temporal_correlations sampleParse 123 uuidB tempLogs 300).map
      (List.map eraseGroupId) :=
  c5_deterministic_modulo_ids sampleParse tempLogs 300 999 123 uuidA uuidB
    (by
      intro l hl
      simp only [tempLogs, mkLog, List.mem_cons, List.mem_singleton] at hl
      rcases hl with rfl | rfl | rfl | h
      · exact ⟨"0", 0, by decide, by decide⟩
      · exact ⟨"50", 50, by decide, by decide⟩
      · exact ⟨"100", 100, by decide, by decide⟩
      · cases h)

/-! Small reduction lemmas for the `Except` monad, used to evaluate the
embedded do-blocks in proofs. -/

theorem exceptOkBind (x : α) (f : α → Except PyErr β) :
    (Except.ok x >>= f) = f x := rfl

theorem exceptPureBind (x : α) (f : α → Except PyErr β) :
    (pure x >>= f) = f x := rfl

theorem exceptErrBind (e : PyErr) (f : α → Except PyErr β) :
    ((Except.error e : Except PyErr α) >>= f) = .error e := rfl

theorem exceptMapOkEq (f : α → β) (x : α) :
    (Except.ok x : Except PyErr α).map f = .ok (f x) := rfl

theorem exceptMapErrEq (f : α → β) (e : PyErr) :
    (Except.error e : Except PyErr α).map f = .error e := rfl

/-! ## C9 — one record with two equal identifiers makes a degenerate flow -/

/-- C9: a single record whose extraction yields both `request_id` and
`trace_id` with the same non-empty value `v` is appended twice to the bucket
for `v`, so the one-record batch already passes the `> 1` threshold and
produces one `ServiceFlow` whose timeline holds the same entry twice with
`total_duration = 0`. -/
theorem c9_duplicate_identifier_flow (ptime : String → Option ℚ) (now : ℚ)
    (l : PyDict) (v lvl m : String) (hv : v ≠ "")
    (hext : extract_correlation_fields l
        ["request_id", "trace_id", "session_id"] =
      .ok [("request_id", vStr v), ("trace_id", vStr v)])
    (hlvl : dictGetD l "level" (vStr "") = vStr lvl)
    (hm : dictGetD l "message" (vStr "") = vStr m) :
    trace_service_flows ptime now [l] = .ok
      [{ request_id := vStr v
         services := [svcOf l]
         timeline :=
           [⟨dictGetD l "timestamp" vNone, svcOf l, dictGetD l "level" vNone,
             vStr (String.mk (m.data.take 100))⟩,
            ⟨dictGetD l "timestamp" vNone, svcOf l, dictGetD l "level" vNone,
             vStr (String.mk (m.data.take 100))⟩]
         total_duration := 0
         errors := if strLower lvl ∈ ["error", "critical", "fatal"]
           then [l, l] else []
         warnings := if strLower lvl ∈ ["error", "critical", "fatal"] then []
           else if strLower lvl ∈ ["warn", "warning"] then [l, l] else [] }] := by
  have htr : pyTruthy (vStr v) = true := by simp [pyTruthy, hv]
  have hgroups : flowGroups [] [l] = .ok [(vStr v, [l, l])] := by
    simp only [flowGroups, hext, exceptOkBind]
    simp [htr, bumpGroup]
  have hsorted : stableSort
      (fun a b => decide (tsOf ptime now a ≤ tsOf ptime now b)) [l, l] =
      [l, l] := by
    have hd : decide (tsOf ptime now l ≤ tsOf ptime now l) = true := by simp
    simp [stableSort, stableInsert, hd]
  set e : TimelineEntry :=
    { timestamp := dictGetD l "timestamp" vNone
      service := svcOf l
      level := dictGetD l "level" vNone
      message := vStr (String.mk (m.data.take 100)) } with he
  have hfinal : ∀ errs warns,
      flowWalk [l, l] ([], [], [], []) = .ok ([svcOf l], [e, e], errs, warns) →
      trace_service_flows ptime now [l] =
        .ok [{ request_id := vStr v, services := [svcOf l], timeline := [e, e]
               total_duration := 0, errors := errs, warnings := warns }] := by
    intro errs warns hwalk
    simp only [trace_service_flows, hgroups, exceptOkBind]
    simp only [flowEmit, hsorted, hwalk, exceptOkBind]
    simp [List.getLastD]
  by_cases h1 : strLower lvl ∈ ["error", "critical", "fatal"]
  · rw [if_pos h1, if_pos h1]
    refine hfinal [l, l] [] ?_
    simp only [flowWalk, hm, hlvl, pySlice100, pyLower, exceptOkBind]
    simp at h1
    simp [h1]
  · rw [if_neg h1, if_neg h1]
    by_cases h2 : strLower lvl ∈ ["warn", "warning"]
    · rw [if_pos h2]
      refine hfinal [] [l, l] ?_
      simp only [flowWalk, hm, hlvl, pySlice100, pyLower, exceptOkBind]
      simp at h1 h2
      simp [h1, h2]
    · rw [if_neg h2]
      refine hfinal [] [] ?_
      simp only [flowWalk, hm, hlvl, pySlice100, pyLower, exceptOkBind]
      simp at h1 h2
      simp [h1, h2]

theorem c9_duplicate_identifier_flow_witness :
    trace_service_flows sampleParse 999 [c9Log] = .ok
      [{ request_id := vStr "r1"
         services := [svcOf c9Log]
         timeline :=
           [⟨dictGetD c9Log "timestamp" vNone, svcOf c9Log,
             dictGetD c9Log "level" vNone, vStr (String.mk ("m".data.take 100))⟩,
            ⟨dictGetD c9Log "timestamp" vNone, svcOf c9Log,
             dictGetD c9Log "level" vNone, vStr (String.mk ("m".data.take 100))⟩]
         total_duration := 0
         errors := if strLower "info" ∈ ["error", "critical", "fatal"]
           then [c9Log, c9Log] else []
         warnings := if strLower "info" ∈ ["error", "critical", "fatal"] then []
           else if strLower "info" ∈ ["warn", "warning"] then [c9Log, c9Log]
           else [] }] :=
  c9_duplicate_identifier_flow sampleParse 999 c9Log "r1" "info" "m"
    (by decide) (by decide) (by decide) (by decide)

/-! ## C10 — exactly-three-word messages: no repeated-pattern anomaly, yet
pattern correlation still groups them -/

/-- C10: if every record's message is the same three-word text (and level and
service agree, with at least 3 records), the repeated-message-pattern check of
`detect_pattern_anomalies` buckets nothing — its `len(words) > 3` guard is
strict — so it emits no repeated-pattern anomaly, while
`find_pattern_correlations` (whose guard is `len(words) >= 3`) puts the whole
batch into one group. -/
theorem c10_three_word_messages (ptime : String → Option ℚ) (now : ℚ)
    (uu : Nat → String) (logs : List PyDict) (m : String) (lv sv : PyVal)
    (w1 w2 w3 : String)
    (hm : ∀ l ∈ logs, dictGetD l "message" (vStr "") = vStr m)
    (hlv : ∀ l ∈ logs, dictGetD l "level" (vStr "") = lv)
    (hsv : ∀ l ∈ logs, dictGetD l "service" (vStr "") = sv)
    (hw : wsSplit (strLower m) = [w1, w2, w3])
    (hlen : 3 ≤ logs.length) :
    lowerMsgs logs = .ok (logs.map (fun l => (l, strLower m))) ∧
    repeatedPatternAnomalies logs.length (logs.map (fun l => (l, strLower m)))
      (messagePatterns (logs.map (fun l => (l, strLower m)))) = [] ∧
    (find_pattern_correlations ptime now uu logs).map
      (List.map (fun g => g.primary_log :: g.related_logs)) = .ok [logs] := by
  have hlower : ∀ ls : List PyDict,
      (∀ l ∈ ls, dictGetD l "message" (vStr "") = vStr m) →
      lowerMsgs ls = .ok (ls.map (fun l => (l, strLower m))) := by
    intro ls
    induction ls with
    | nil => intro _; rfl
    | cons l ls ih =>
      intro h
      have hh := h l (by simp)
      simp only [lowerMsgs, hh, pyLower, exceptOkBind,
        ih (fun x hx => h x (by simp [hx])), List.map_cons]
      rfl
  have hpat : messagePatterns (logs.map (fun l => (l, strLower m))) = [] := by
    have : ∀ ls : List PyDict, ∀ acc,
        (ls.map (fun l => (l, strLower m))).foldl (fun acc p =>
          let words := wsSplit p.2
          if words.length > 3 then
            bumpCounter (String.intercalate " " (words.take 3)) acc
          else acc) acc = acc := by
      intro ls
      induction ls with
      | nil => intro acc; rfl
      | cons l ls ih =>
        intro acc
        simp only [List.map_cons, List.foldl_cons, hw]
        exact ih acc
    exact this logs []
  refine ⟨hlower logs hm, ?_, ?_⟩
  · rw [hpat]
    rfl
  · -- one bucket holding the whole batch in order
    have haux : ∀ ls : List PyDict,
        (∀ l ∈ ls, dictGetD l "message" (vStr "") = vStr m) →
        (∀ l ∈ ls, dictGetD l "level" (vStr "") = lv) →
        (∀ l ∈ ls, dictGetD l "service" (vStr "") = sv) →
        ∀ pre, patternGroups [(pyStr lv ++ ":" ++ pyStr sv ++ ":"
            ++ String.intercalate " " [w1, w2, w3], pre)] ls =
          .ok [(pyStr lv ++ ":" ++ pyStr sv ++ ":"
            ++ String.intercalate " " [w1, w2, w3], pre ++ ls)] := by
      intro ls
      induction ls with
      | nil => intro _ _ _ pre; simp [patternGroups]
      | cons l ls ih =>
        intro h1 h2 h3 pre
        simp only [patternGroups, h1 l (by simp), pyLower, exceptOkBind, hw,
          h2 l (by simp), h3 l (by simp)]
        norm_num [bumpGroup]
        rw [ih (fun x hx => h1 x (by simp [hx]))
          (fun x hx => h2 x (by simp [hx]))
          (fun x hx => h3 x (by simp [hx])) (pre ++ [l])]
        simp
    cases logs with
    | nil => simp at hlen
    | cons l0 rest =>
      have hg0 : patternGroups [] (l0 :: rest) =
          .ok [(pyStr lv ++ ":" ++ pyStr sv ++ ":"
            ++ String.intercalate " " [w1, w2, w3], l0 :: rest)] := by
        simp only [patternGroups, hm l0 (by simp), pyLower, exceptOkBind, hw,
          hlv l0 (by simp), hsv l0 (by simp)]
        norm_num [bumpGroup]
        rw [haux rest (fun x hx => hm x (by simp [hx]))
          (fun x hx => hlv x (by simp [hx]))
          (fun x hx => hsv x (by simp [hx])) [l0]]
        simp
      have hgt : (l0 :: rest).length > 2 := hlen
      simp only [find_pattern_correlations, hg0, exceptOkBind]
      simp only [patternEmit, if_pos hgt]
      simp [exceptMapOkEq]

theorem c10_three_word_messages_witness :
    lowerMsgs c10Logs = .ok (c10Logs.map (fun l => (l, strLower "a b c"))) ∧
    repeatedPatternAnomalies c10Logs.length
      (c10Logs.map (fun l => (l, strLower "a b c")))
      (messagePatterns (c10Logs.map (fun l => (l, strLower "a b c")))) = [] ∧
    (find_pattern_correlations sampleParse 999 uuidA c10Logs).map
      (List.map (fun g => g.primary_log :: g.related_logs)) = .ok [c10Logs] :=
  c10_three_word_messages sampleParse 999 uuidA c10Logs "a b c"
    (vStr "info") (vStr "db") "a" "b" "c"
    (by decide) (by decide) (by decide) (by decide) (by decide)

/-! ## C2 — what actually links a candidate into an error chain -/

/-- C2 (counterexample): the source checks only `correlation_data[field] is
not None` — no non-empty check — so two records with different services whose
direct `request_id` fields are both the empty string *are* chained, while the
claimed condition (non-null and non-empty on both sides) rejects them. -/
theorem c2_counterexample :
    ¬ (∀ (ptime : String → Option ℚ) (now : ℚ) (uu : Nat → String)
        (logs : List PyDict) (maxLen : Int) (chains : List ErrorChain),
        detect_error_chains ptime now uu logs maxLen = .ok chains →
        ∀ ch ∈ chains, ∀ h0 tl, ch.logs = h0 :: tl →
        ∀ x ∈ tl, specLinkCond h0 x = true) := by
  intro h
  have heq : detect_error_chains sampleParse 999 uuidA [chainLogA, chainLogB]
      10 = .ok c2Chains := by decide
  have := h sampleParse 999 uuidA [chainLogA, chainLogB] 10 c2Chains heq
    (c2Chains.getD 0 dfltChain) (by decide) chainLogA [chainLogB] (by decide)
    chainLogB (by decide)
  exact absurd this (by decide)

theorem buildChain_appends (ptime : String → Option ℚ) (now : ℚ)
    (maxLen : Int) (start : ChainLog) :
    ∀ (cs chain : List ChainLog) (used : List Nat)
      (out : List ChainLog × List Nat),
      buildChain ptime now maxLen start cs chain used = .ok out →
      ∃ suf, out.1 = chain ++ suf ∧
        ∀ x ∈ suf, chainRelated start.2.1 x.2.1 = .ok true := by
  intro cs
  induction cs with
  | nil =>
    intro chain used out heq
    simp only [buildChain] at heq
    cases heq
    exact ⟨[], by simp, by simp⟩
  | cons c cs ih =>
    intro chain used out heq
    simp only [buildChain] at heq
    by_cases h1 : (chain.length : Int) ≥ maxLen
    · rw [if_pos h1] at heq
      cases heq
      exact ⟨[], by simp, by simp⟩
    · rw [if_neg h1] at heq
      by_cases h2 : c.1 ∈ used
      · rw [if_pos h2] at heq
        exact ih chain used out heq
      · rw [if_neg h2] at heq
        by_cases h3 : tsOf ptime now c.2.1 - tsOf ptime now start.2.1 > 600
        · rw [if_pos h3] at heq
          cases heq
          exact ⟨[], by simp, by simp⟩
        · rw [if_neg h3] at heq
          cases hrel : chainRelated start.2.1 c.2.1 with
          | error e =>
            rw [hrel, exceptErrBind] at heq
            cases heq
          | ok rel =>
            rw [hrel, exceptOkBind] at heq
            cases rel with
            | false =>
              rw [if_neg (by simp)] at heq
              exact ih chain used out heq
            | true =>
              rw [if_pos rfl] at heq
              obtain ⟨suf, hsuf, hall⟩ := ih (chain ++ [c]) (used ++ [c.1]) out heq
              refine ⟨c :: suf, by simpa using hsuf, ?_⟩
              intro x hx
              rcases List.mem_cons.mp hx with rfl | hx'
              · exact hrel
              · exact hall x hx'

theorem chainsLoop_chains (ptime : String → Option ℚ) (now : ℚ)
    (maxLen : Int) :
    ∀ (ts : List ChainLog) (used : List Nat) (out : List (List ChainLog)),
      chainsLoop ptime now maxLen ts used = .ok out →
      ∀ ch ∈ out, ∃ t suf, ch = t :: suf ∧
        ∀ x ∈ suf, chainRelated t.2.1 x.2.1 = .ok true := by
  intro ts
  induction ts with
  | nil =>
    intro used out heq ch hch
    simp only [chainsLoop] at heq
    cases heq
    cases hch
  | cons t ts ih =>
    intro used out heq ch hch
    simp only [chainsLoop] at heq
    by_cases h1 : t.1 ∈ used
    · rw [if_pos h1] at heq
      exact ih used out heq ch hch
    · rw [if_neg h1] at heq
      cases hb : buildChain ptime now maxLen t ts [t] (used ++ [t.1]) with
      | error e =>
        rw [hb, exceptErrBind] at heq
        cases heq
      | ok pr =>
        obtain ⟨chainP, usedP⟩ := pr
        rw [hb, exceptOkBind] at heq
        cases ht : chainsLoop ptime now maxLen ts usedP with
        | error e =>
          rw [ht] at heq
          simp only [exceptErrBind] at heq
          cases heq
        | ok tail =>
          rw [ht] at heq
          simp only [exceptOkBind] at heq
          cases heq
          by_cases h2 : chainP.length > 1
          · rw [if_pos h2] at hch
            rcases List.mem_cons.mp hch with rfl | htail
            · obtain ⟨suf, hsuf, hall⟩ :=
                buildChain_appends ptime now maxLen t ts [t] (used ++ [t.1])
                  (ch, usedP) hb
              exact ⟨t, suf, by simpa using hsuf, hall⟩
            · exact ih usedP tail ht ch htail
          · rw [if_neg h2] at hch
            exact ih usedP tail ht ch hch

theorem emitChains_mem (ptime : String → Option ℚ) (now : ℚ)
    (uu : Nat → String) :
    ∀ (raws : List (List ChainLog)) (k : Nat) (ec : ErrorChain),
      ec ∈ emitChains ptime now uu raws k →
      ∃ rch ∈ raws, ec.logs = rch.map (fun t => t.2.1) := by
  intro raws
  induction raws with
  | nil => intro k ec h; cases h
  | cons rch raws ih =>
    intro k ec h
    simp only [emitChains] at h
    rcases List.mem_cons.mp h with rfl | h'
    · exact ⟨rch, by simp, rfl⟩
    · obtain ⟨r, hr, he⟩ := ih (k + 1) ec h'
      exact ⟨r, by simp [hr], he⟩

/-- C2 (amended): every non-start member of every emitted chain passed the
source's linking test against the chain's start record — same `service`
value, or one of `request_id`/`user_id`/`session_id` extracted on both
records with equal values and a non-`None` candidate value.  An empty-string
value shared by both records does link; only `None` is rejected. -/
theorem c2_link_condition (ptime : String → Option ℚ) (now : ℚ)
    (uu : Nat → String) (logs : List PyDict) (maxLen : Int)
    (chains : List ErrorChain)
    (h : detect_error_chains ptime now uu logs maxLen = .ok chains) :
    ∀ ch ∈ chains, ch.logs ≠ [] ∧
      ∀ x ∈ ch.logs.tail, chainRelated (ch.logs.headD []) x = .ok true := by
  intro ch hch
  simp only [detect_error_chains] at h
  cases hlf : levelFilter logs.enum with
  | error e =>
    rw [hlf, exceptErrBind] at h
    cases h
  | ok el =>
    rw [hlf, exceptOkBind] at h
    by_cases hemp : el.isEmpty
    · rw [if_pos hemp] at h
      cases h
      cases hch
    · rw [if_neg hemp] at h
      cases hcl : chainsLoop ptime now maxLen
          (stableSort (fun a b =>
            decide (tsOf ptime now a.2.1 ≤ tsOf ptime now b.2.1)) el) [] with
      | error e =>
        rw [hcl, exceptErrBind] at h
        cases h
      | ok raws =>
        rw [hcl, exceptOkBind] at h
        cases h
        have hch' : ch ∈ stableSort chainKeyGE (emitChains ptime now uu raws 0) :=
          List.mem_of_mem_take hch
        have hch'' : ch ∈ emitChains ptime now uu raws 0 :=
          (mem_stableSort _ _ _).mp hch'
        obtain ⟨rch, hr, hlogs⟩ := emitChains_mem ptime now uu raws 0 ch hch''
        obtain ⟨t, suf, rfl, hall⟩ :=
          chainsLoop_chains ptime now maxLen _ [] raws hcl rch hr
        rw [hlogs]
        simp only [List.map_cons, List.headD_cons, List.tail_cons, ne_eq,
          List.cons_ne_nil, not_false_eq_true, true_and]
        intro x hx
        obtain ⟨s, hs, rfl⟩ := List.mem_map.mp hx
        exact hall s hs

theorem c2_link_condition_witness :
    (c2Chains.getD 0 dfltChain).logs ≠ [] ∧
    chainRelated ((c2Chains.getD 0 dfltChain).logs.headD [])
      ((c2Chains.getD 0 dfltChain).logs.tail.headD []) = .ok true :=
  ⟨(c2_link_condition sampleParse 999 uuidA [chainLogA, chainLogB] 10
      c2Chains (by decide) (c2Chains.getD 0 dfltChain) (by decide)).1,
   (c2_link_condition sampleParse 999 uuidA [chainLogA, chainLogB] 10
      c2Chains (by decide) (c2Chains.getD 0 dfltChain) (by decide)).2
     ((c2Chains.getD 0 dfltChain).logs.tail.headD []) (by decide)⟩

/-! ## C4 — confidence always lands in [0, 0.95] -/

theorem qmean_nonneg {l : List ℚ} (h : ∀ x ∈ l, 0 ≤ x) : 0 ≤ qmean l :=
  div_nonneg (List.sum_nonneg h) (by positivity)

theorem qvariance_nonneg (l : List ℚ) : 0 ≤ qvariance l :=
  qmean_nonneg (by
    intro x hx
    obtain ⟨y, _, rfl⟩ := List.mem_map.mp hx
    positivity)

theorem minConf95_bounds {num den : ℚ} (hn : 0 ≤ num) (hd : 0 ≤ den) :
    0 ≤ minConf95 num den ∧ minConf95 num den ≤ 19/20 := by
  unfold minConf95
  by_cases h : den = 0
  · rw [if_pos h]
    norm_num
  · rw [if_neg h]
    exact ⟨le_min (by norm_num) (div_nonneg hn hd), min_le_left _ _⟩

theorem repeatedPatternAnomalies_bounds (total : Nat)
    (pairs : List (PyDict × String)) :
    ∀ (counter : List (String × Nat)) (a : Anomaly),
      a ∈ repeatedPatternAnomalies total pairs counter →
      0 ≤ a.confidence ∧ a.confidence ≤ 19/20 := by
  intro counter
  induction counter with
  | nil => intro a ha; cases ha
  | cons p rest ih =>
    obtain ⟨pat, count⟩ := p
    intro a ha
    simp only [repeatedPatternAnomalies] at ha
    by_cases hg : (decide ((count : ℚ) / total > 1/10) && decide (count > 5)) = true
    · rw [if_pos hg] at ha
      rcases List.mem_cons.mp ha with rfl | ha'
      · have hfreq : (1:ℚ)/10 < (count : ℚ) / total := by
          have := (Bool.and_eq_true _ _).mp hg
          exact of_decide_eq_true this.1
        constructor
        · exact le_min (by norm_num) (by nlinarith)
        · calc min (9/10 : ℚ) ((count : ℚ) / total * 2) ≤ 9/10 := min_le_left _ _
            _ ≤ 19/20 := by norm_num
      · exact ih a ha'
    · rw [if_neg hg] at ha
      exact ih a ha

/-- C4: every anomaly emitted by `detect_volume_anomalies` or
`detect_pattern_anomalies` — and hence by `analyze_logs` — has confidence in
[0, 0.95], for every batch and every baseline whose samples are nonnegative
(as all reachable baselines are: hourly counts and 0/1 error samples), for
any nonnegative sensitivity (the config documents 0.0–1.0), including the
degenerate zero-threshold cases, where the numpy division yields `+inf` and
the `min` caps it at 0.95. -/
theorem c4_confidence_bounds (cfg : AnomalyConfig) (bl : BaselineState)
    (sqrtQ : ℚ → ℚ) (logs : List PyDict)
    (hs : 0 ≤ cfg.sensitivity)
    (hhv : ∀ x ∈ bl.hourly_volume, 0 ≤ x)
    (her : ∀ x ∈ bl.error_rate, 0 ≤ x)
    (hsq : ∀ x, 0 ≤ x → 0 ≤ sqrtQ x) :
    (∀ a ∈ detect_volume_anomalies cfg bl sqrtQ logs,
      0 ≤ a.confidence ∧ a.confidence ≤ 19/20) ∧
    (∀ res, detect_pattern_anomalies cfg bl logs = .ok res →
      ∀ a ∈ res, 0 ≤ a.confidence ∧ a.confidence ≤ 19/20) ∧
    (∀ res, analyze_logs cfg bl sqrtQ logs = .ok res →
      ∀ a ∈ res, 0 ≤ a.confidence ∧ a.confidence ≤ 19/20) := by
  have hstd : 0 ≤ sqrtQ (qvariance bl.hourly_volume) :=
    hsq _ (qvariance_nonneg _)
  have hM : 0 ≤ qmean bl.hourly_volume := qmean_nonneg hhv
  have Hvol : ∀ a ∈ detect_volume_anomalies cfg bl sqrtQ logs,
      0 ≤ a.confidence ∧ a.confidence ≤ 19/20 := by
    intro a ha
    simp only [detect_volume_anomalies] at ha
    by_cases h1 : (logs.length : Int) < cfg.min_samples
    · rw [if_pos h1] at ha; cases ha
    · rw [if_neg h1] at ha
      by_cases h2 : bl.hourly_volume.length < 5
      · rw [if_pos h2] at ha; cases ha
      · rw [if_neg h2] at ha
        have hth : 0 ≤ qmean bl.hourly_volume +
            2 * sqrtQ (qvariance bl.hourly_volume) * cfg.sensitivity := by
          have : 0 ≤ 2 * sqrtQ (qvariance bl.hourly_volume) * cfg.sensitivity := by
            positivity
          linarith
        by_cases h3 : (logs.length : ℚ) > qmean bl.hourly_volume +
            2 * sqrtQ (qvariance bl.hourly_volume) * cfg.sensitivity
        · rw [if_pos h3] at ha
          rcases List.mem_cons.mp ha with rfl | h
          · exact minConf95_bounds (by linarith) hth
          · cases h
        · rw [if_neg h3] at ha
          by_cases h4 : (logs.length : ℚ) < max 0 (qmean bl.hourly_volume -
              2 * sqrtQ (qvariance bl.hourly_volume) * cfg.sensitivity)
          · rw [if_pos h4] at ha
            rcases List.mem_cons.mp ha with rfl | h
            · refine minConf95_bounds ?_ (le_max_left _ _)
              have : (0:ℚ) ≤ (logs.length : ℚ) := by positivity
              linarith
            · cases h
          · rw [if_neg h4] at ha
            cases ha
  have Hpat : ∀ res, detect_pattern_anomalies cfg bl logs = .ok res →
      ∀ a ∈ res, 0 ≤ a.confidence ∧ a.confidence ≤ 19/20 := by
    intro res hres a ha
    simp only [detect_pattern_anomalies] at hres
    cases hlv : lowerLevels logs with
    | error e => rw [hlv, exceptErrBind] at hres; cases hres
    | ok lv =>
      rw [hlv, exceptOkBind] at hres
      by_cases h1 : bl.error_rate.length < 10
      · rw [if_pos h1] at hres
        cases hres
        cases ha
      · rw [if_neg h1] at hres
        cases hmp : lowerMsgs logs with
        | error e => rw [hmp, exceptErrBind] at hres; cases hres
        | ok mp =>
          rw [hmp, exceptOkBind] at hres
          cases hres
          rcases List.mem_append.mp ha with hl | hr
          · -- the error-rate anomaly
            have hthr : 0 ≤ qmean bl.error_rate + 1/10 * cfg.sensitivity := by
              have := qmean_nonneg her
              linarith
            by_cases hgt : (if logs.length = 0 then (0:ℚ) else
                ((lv.filter (fun p => p.2 ∈ ["error", "critical", "fatal"])).length : ℚ)
                  / logs.length) > qmean bl.error_rate + 1/10 * cfg.sensitivity
            · rw [if_pos hgt] at hl
              rcases List.mem_cons.mp hl with rfl | h
              · exact minConf95_bounds (by linarith) hthr
              · cases h
            · rw [if_neg hgt] at hl
              cases hl
          · exact repeatedPatternAnomalies_bounds _ _ _ a hr
  refine ⟨Hvol, Hpat, ?_⟩
  intro res hres a ha
  simp only [analyze_logs] at hres
  by_cases henb : cfg.enabled
  · rw [if_neg (by simp [henb])] at hres
    by_cases hpm : cfg.detection_methods.contains "pattern"
    · rw [if_pos hpm] at hres
      cases hp : detect_pattern_anomalies cfg bl logs with
      | error e => rw [hp, exceptErrBind] at hres; cases hres
      | ok pl =>
        rw [hp, exceptOkBind] at hres
        cases hres
        rcases List.mem_append.mp ha with hl | hr
        · by_cases hv : cfg.detection_methods.contains "volume"
          · rw [if_pos hv] at hl
            exact Hvol a hl
          · rw [if_neg hv] at hl
            cases hl
        · exact Hpat pl hp a hr
    · rw [if_neg hpm, exceptPureBind] at hres
      cases hres
      rcases List.mem_append.mp ha with hl | hr
      · by_cases hv : cfg.detection_methods.contains "volume"
        · rw [if_pos hv] at hl
          exact Hvol a hl
        · rw [if_neg hv] at hl
          cases hl
      · cases hr
  · rw [if_pos (by simp [henb])] at hres
    cases hres
    cases ha

theorem c4_confidence_bounds_witness :
    0 ≤ ((detect_volume_anomalies scenarioConfig scenarioBaseline (fun _ => 0)
        (List.replicate 20 ([] : PyDict))).headD dfltAnomaly).confidence ∧
    ((detect_volume_anomalies scenarioConfig scenarioBaseline (fun _ => 0)
        (List.replicate 20 ([] : PyDict))).headD dfltAnomaly).confidence ≤
      19/20 :=
  (c4_confidence_bounds scenarioConfig scenarioBaseline (fun _ => 0)
      (List.replicate 20 ([] : PyDict)) (by decide) (by decide) (by decide)
      (fun _ _ => le_refl 0)).1 _ (by decide)
